import Mathlib

/-!
Verification of the Resilient Extraction Orchestrator of
`backend/services/gemini_service.py` (JSON repair parser `_safe_json_parse`,
retry controller `_with_retry`, line-item normalization `_parse_line_items`,
and merge post-processing `_post_process_invoice_data`), together with the
record shape of `backend/models.py`.

Modelling conventions:
* Python strings are modelled as `List Char`.
* Python numbers (int/float) are modelled as exact rationals `ℚ`; IEEE-754
  rounding of Python binary floats is not modelled, and the decimal rounding
  of `float(f"{x:.6f}")` is modelled as exact decimal rounding on `ℚ`.
* Python dicts are modelled as association lists in insertion order; writing
  to an existing key updates it in place, as a Python dict does.
* Exceptions are modelled with `Except String`.
-/

set_option maxRecDepth 8000

/-- A JSON value as recovered by the parser.  Numbers are exact rationals
(see module conventions); objects keep Python dict insertion order. -/
inductive Json where
  | null : Json
  | bool (b : Bool) : Json
  | num (q : ℚ) : Json
  | str (s : String) : Json
  | arr (elems : List Json) : Json
  | obj (fields : List (String × Json)) : Json

/-- JSON whitespace accepted between tokens by the strict parser
(space, tab, newline, carriage return, exactly as Python's `json.loads`). -/
def isWsJ (c : Char) : Bool := c = ' ' || c = '\t' || c = '\n' || c = '\r'

/-- Drop leading JSON whitespace. -/
def skipWsJ (cs : List Char) : List Char := cs.dropWhile isWsJ

/-- ASCII whitespace, used to model Python `str.strip` and the regex class
`\s` (space, tab, newline, carriage return, vertical tab, form feed; the
rare non-ASCII unicode whitespace is not modelled — no claim depends on it). -/
def isPyWs (c : Char) : Bool :=
  c = ' ' || c = '\t' || c = '\n' || c = '\r' || c = Char.ofNat 11 || c = Char.ofNat 12

/-- Value of one hex digit. -/
def hexVal (c : Char) : Option ℕ :=
  if '0' ≤ c ∧ c ≤ '9' then some (c.toNat - 48)
  else if 'a' ≤ c ∧ c ≤ 'f' then some (c.toNat - 87)
  else if 'A' ≤ c ∧ c ≤ 'F' then some (c.toNat - 55)
  else none

/-- Body of a JSON string literal, read after its opening quote.  Models
Python's strict scanner: the escapes `\" \\ \/ \b \f \n \r \t \uXXXX` are
recognised and unescaped control characters (below 0x20) are rejected.
`\uXXXX` is accepted for non-surrogate code points (surrogate-pair joining
is not modelled; no claim exercises it). -/
def parseStringBody (acc : List Char) : List Char → Option (String × List Char)
  | [] => none
  | c :: rest =>
    if c = '"' then some (String.mk acc.reverse, rest)
    else if c = '\\' then
      match rest with
      | [] => none
      | e :: r2 =>
        if e = '"' ∨ e = '\\' ∨ e = '/' then parseStringBody (e :: acc) r2
        else if e = 'b' then parseStringBody (Char.ofNat 8 :: acc) r2
        else if e = 'f' then parseStringBody (Char.ofNat 12 :: acc) r2
        else if e = 'n' then parseStringBody ('\n' :: acc) r2
        else if e = 'r' then parseStringBody ('\r' :: acc) r2
        else if e = 't' then parseStringBody ('\t' :: acc) r2
        else if e = 'u' then
          match r2 with
          | h1 :: h2 :: h3 :: h4 :: r3 =>
            match hexVal h1, hexVal h2, hexVal h3, hexVal h4 with
            | some a, some b, some c3, some d =>
              let n := ((a * 16 + b) * 16 + c3) * 16 + d
              if n < 55296 ∨ 57343 < n then parseStringBody (Char.ofNat n :: acc) r3
              else none
            | _, _, _, _ => none
          | _ => none
        else none
    else if c.toNat < 32 then none
    else parseStringBody (c :: acc) rest

/-- Natural number denoted by a list of decimal digits. -/
def digitsToNat (ds : List Char) : ℕ := ds.foldl (fun acc c => 10 * acc + (c.toNat - 48)) 0

/-- A JSON number literal (RFC 8259 grammar, as accepted by Python's
`json.loads`): optional minus, integer part without leading zeros, optional
fraction, optional exponent.  A failing optional group is simply not
consumed, as with the scanner's regex.  Python's `NaN`/`Infinity`
extensions are not modelled (no claim exercises them).  Returns the exact
rational value and the unread input. -/
def parseNumber (cs : List Char) : Option (Json × List Char) :=
  let signed : Bool × List Char := match cs with | '-' :: r => (true, r) | _ => (false, cs)
  let neg := signed.1
  let r1 := signed.2
  match r1 with
  | [] => none
  | d :: _ =>
    if ¬ d.isDigit then none
    else
      let intDigits := if d = '0' then ['0'] else r1.takeWhile Char.isDigit
      let r2 := r1.drop intDigits.length
      let fracStep : List Char × List Char :=
        match r2 with
        | '.' :: rr =>
          let f := rr.takeWhile Char.isDigit
          if f = [] then ([], r2) else (f, rr.drop f.length)
        | _ => ([], r2)
      let fracDigits := fracStep.1
      let r3 := fracStep.2
      let expStep : Option ℤ × List Char :=
        match r3 with
        | e :: rr =>
          if e = 'e' ∨ e = 'E' then
            let signedE : ℤ × List Char :=
              match rr with
              | '+' :: t => (1, t)
              | '-' :: t => (-1, t)
              | _ => (1, rr)
            let eds := signedE.2.takeWhile Char.isDigit
            if eds = [] then (none, r3)
            else (some (signedE.1 * (digitsToNat eds : ℤ)), signedE.2.drop eds.length)
          else (none, r3)
        | [] => (none, r3)
      let mant : ℚ := mkRat (digitsToNat (intDigits ++ fracDigits) : ℤ) (10 ^ fracDigits.length)
      let base : ℚ := if neg then -mant else mant
      let value : ℚ :=
        match expStep.1 with
        | none => base
        | some e =>
          if 0 ≤ e then mkRat (base.num * (10 : ℤ) ^ e.toNat) base.den
          else mkRat base.num (base.den * 10 ^ (-e).toNat)
      some (.num value, expStep.2)

/-- Python-dict write: update the first occurrence of the key in place,
otherwise append the pair at the end (insertion order preserved). -/
def objSet : List (String × Json) → String → Json → List (String × Json)
  | [], k, v => [(k, v)]
  | (k', v') :: rest, k, v =>
      if k' = k then (k, v) :: rest else (k', v') :: objSet rest k v

/-- Python-dict read: value at the key, if present. -/
def objGet : List (String × Json) → String → Option Json
  | [], _ => none
  | (k', v) :: rest, k => if k' = k then some v else objGet rest k

mutual
/-- One JSON value, fueled model of Python's `json.loads` scanner.
`jsonParse` supplies fuel exceeding any possible recursion depth for its
input, so the fuel never runs out on inputs the scanner accepts. -/
def parseVal : ℕ → List Char → Option (Json × List Char)
  | 0, _ => none
  | fuel + 1, cs =>
    match cs with
    | [] => none
    | c :: rest =>
      if c = '{' then
        match skipWsJ rest with
        | '}' :: r2 => some (.obj [], r2)
        | r2 => parseMembers fuel r2 []
      else if c = '[' then
        match skipWsJ rest with
        | ']' :: r2 => some (.arr [], r2)
        | r2 => parseElems fuel r2 []
      else if c = '"' then
        match parseStringBody [] rest with
        | some (s, r2) => some (.str s, r2)
        | none => none
      else if c = 't' then
        match rest with
        | 'r' :: 'u' :: 'e' :: r2 => some (.bool true, r2)
        | _ => none
      else if c = 'f' then
        match rest with
        | 'a' :: 'l' :: 's' :: 'e' :: r2 => some (.bool false, r2)
        | _ => none
      else if c = 'n' then
        match rest with
        | 'u' :: 'l' :: 'l' :: r2 => some (.null, r2)
        | _ => none
      else parseNumber cs

/-- Members of a JSON object after its opening brace (non-empty case);
a repeated key overwrites the earlier value in place, as a Python dict. -/
def parseMembers : ℕ → List Char → List (String × Json) → Option (Json × List Char)
  | 0, _, _ => none
  | fuel + 1, cs, acc =>
    match cs with
    | '"' :: rest =>
      match parseStringBody [] rest with
      | some (k, r2) =>
        match skipWsJ r2 with
        | ':' :: r3 =>
          match parseVal fuel (skipWsJ r3) with
          | some (v, r4) =>
            match skipWsJ r4 with
            | ',' :: r5 => parseMembers fuel (skipWsJ r5) (objSet acc k v)
            | '}' :: r5 => some (.obj (objSet acc k v), r5)
            | _ => none
          | none => none
        | _ => none
      | none => none
    | _ => none

/-- Elements of a JSON array after its opening bracket (non-empty case). -/
def parseElems : ℕ → List Char → List Json → Option (Json × List Char)
  | 0, _, _ => none
  | fuel + 1, cs, acc =>
    match parseVal fuel cs with
    | some (v, r) =>
      match skipWsJ r with
      | ',' :: r2 => parseElems fuel (skipWsJ r2) (v :: acc)
      | ']' :: r2 => some (.arr (v :: acc).reverse, r2)
      | _ => none
    | none => none
end

/-- Model of a strict JSON parse (Python `json.loads`): the input must be a
single JSON value surrounded only by whitespace; anything else (including
extra data after the value) fails. -/
def jsonParse (cs : List Char) : Option Json :=
  match parseVal (cs.length + 2) (skipWsJ cs) with
  | some (v, rest) => if skipWsJ rest = [] then some v else none
  | none => none

/-- The backtick character, written by code point to keep the development
free of literal backticks. -/
def btick : Char := Char.ofNat 96

/-- Case-insensitive match of a single letter (regex IGNORECASE). -/
def ciIs (c target : Char) : Bool := c.toLower = target

/-- Stage 1a of `_safe_json_parse`: Python
`re.sub(r"^^^json\s*", "", text, flags=re.IGNORECASE)` where `^` stands for
a backtick — every occurrence of a triple backtick followed by `json`
(case-insensitive) and trailing whitespace is deleted, scanning left to
right over non-overlapping matches. -/
def stripJsonFenceAux : ℕ → List Char → List Char
  | 0, cs => cs
  | _, [] => []
  | fuel + 1, c1 :: c2 :: c3 :: c4 :: c5 :: c6 :: c7 :: tail =>
    if c1 = btick ∧ c2 = btick ∧ c3 = btick ∧
       ciIs c4 'j' ∧ ciIs c5 's' ∧ ciIs c6 'o' ∧ ciIs c7 'n' then
      stripJsonFenceAux fuel (tail.dropWhile isPyWs)
    else c1 :: stripJsonFenceAux fuel (c2 :: c3 :: c4 :: c5 :: c6 :: c7 :: tail)
  | fuel + 1, c :: rest => c :: stripJsonFenceAux fuel rest

/-- Stage 1a (see `stripJsonFenceAux`); the fuel `cs.length` is always
sufficient because every scanning step consumes at least one character. -/
def stripJsonFence (cs : List Char) : List Char := stripJsonFenceAux cs.length cs

/-- Does the text consist of a triple backtick followed only by whitespace?
(the suffix form matched by Python `re.sub(r"^^^\s*$", "", clean)` with `^`
standing for a backtick). -/
def isFenceToEnd (cs : List Char) : Bool :=
  match cs with
  | c1 :: c2 :: c3 :: rest => c1 = btick && c2 = btick && c3 = btick && rest.all isPyWs
  | _ => false

/-- Stage 1b of `_safe_json_parse`: delete a trailing code-fence closer —
the leftmost occurrence of a triple backtick whose remaining suffix is all
whitespace, together with everything after it. -/
def stripTrailingFence : List Char → List Char
  | [] => []
  | c :: rest => if isFenceToEnd (c :: rest) then [] else c :: stripTrailingFence rest

/-- Python `str.strip()` from the left (ASCII whitespace). -/
def pyLstrip (cs : List Char) : List Char := cs.dropWhile isPyWs

/-- Python `str.rstrip()` (ASCII whitespace). -/
def pyRstrip (cs : List Char) : List Char := (cs.reverse.dropWhile isPyWs).reverse

/-- Python `str.strip()` (ASCII whitespace, both ends). -/
def pyStrip (cs : List Char) : List Char := pyRstrip (pyLstrip cs)

/-- An opening JSON bracket, as searched for by `re.search(r"[{[]", clean)`. -/
def isOpenBracket (c : Char) : Bool := c = '{' || c = '['

/-- A closing JSON bracket. -/
def isCloseBracket (c : Char) : Bool := c = '}' || c = ']'

/-- Stage 1c of `_safe_json_parse`: if the text contains a `{` or `[`,
discard everything before the first one; otherwise leave it unchanged. -/
def dropToFirstBracket (cs : List Char) : List Char :=
  if cs.any isOpenBracket then cs.dropWhile (fun c => ¬ isOpenBracket c) else cs

/-- Stage 1d of `_safe_json_parse`: find the last `}` or `]`
(`max(rfind, rfind)`); if it exists and is not the final character,
discard everything after it.  Note this looks at raw characters, string
literals included. -/
def truncAfterLastCloser (cs : List Char) : List Char :=
  match cs.reverse.findIdx? isCloseBracket with
  | none => cs
  | some k => if k = 0 then cs else cs.take (cs.length - k)

/-- Stage 1.5 of `_safe_json_parse`: Python
`re.sub(r",\s*([\]}])", r"\1", clean)` — every comma followed by optional
whitespace and a closing `}`/`]` is replaced by that closer (comma and
whitespace deleted), scanning left to right over non-overlapping matches.
The regex does not know about string literals. -/
def fixTrailingCommasAux : ℕ → List Char → List Char
  | 0, cs => cs
  | _, [] => []
  | fuel + 1, c :: rest =>
    if c = ',' then
      match rest.dropWhile isPyWs with
      | c2 :: rest3 =>
        if isCloseBracket c2 then c2 :: fixTrailingCommasAux fuel rest3
        else c :: fixTrailingCommasAux fuel rest
      | [] => c :: fixTrailingCommasAux fuel rest
    else c :: fixTrailingCommasAux fuel rest

/-- Stage 1.5 of `_safe_json_parse` (see `fixTrailingCommasAux`); the fuel
`cs.length` is always sufficient because every scanning step consumes at
least one character. -/
def fixTrailingCommas (cs : List Char) : List Char := fixTrailingCommasAux cs.length cs

/-- Occurrence test matching `fixTrailingCommas`: does the text contain a
comma followed by optional whitespace and a closing bracket? -/
def hasCommaCloser : List Char → Bool
  | [] => false
  | c :: rest =>
    (c = ',' && (match rest.dropWhile isPyWs with
                 | c2 :: _ => isCloseBracket c2
                 | [] => false)) || hasCommaCloser rest

/-- Stage 1 + 1.5 of `_safe_json_parse`: the full cleaning prelude applied
to the raw text before any parse attempt (fence stripping, strip, slice
from first opening bracket, truncation after the last closing bracket,
strip, trailing-comma fix), in the code's order. -/
def cleanText (s : List Char) : List Char :=
  fixTrailingCommas (pyStrip (truncAfterLastCloser (dropToFirstBracket
    (pyStrip (stripTrailingFence (stripJsonFence s))))))

/-- The character scan of the stage-3 token balancer: one step per
character, tracking escape state, string state and the stack of expected
closers (head = top).  A backslash sets the escape flag even outside a
string, and a mismatched closer is ignored, exactly as in the code. -/
def scanBal : List Char → Bool → Bool → List Char → Bool × List Char
  | [], inStr, _, stk => (inStr, stk)
  | c :: rest, inStr, escaped, stk =>
    if escaped then scanBal rest inStr false stk
    else if c = '\\' then scanBal rest inStr true stk
    else if c = '"' then scanBal rest (!inStr) false stk
    else if inStr then scanBal rest inStr false stk
    else if c = '{' then scanBal rest inStr false ('}' :: stk)
    else if c = '[' then scanBal rest inStr false (']' :: stk)
    else if c = '}' ∨ c = ']' then
      match stk with
      | t :: stk' => if t = c then scanBal rest inStr false stk' else scanBal rest inStr false stk
      | [] => scanBal rest inStr false stk
    else scanBal rest inStr false stk

/-- The token-balancer repair of `_safe_json_parse`: scan the cleaned text,
then close an open string literal, strip trailing whitespace, drop a
trailing comma or append `null` after a trailing colon, and append the
remaining expected closers in last-in-first-out order. -/
def balance (clean : List Char) : List Char :=
  let scanned := scanBal clean false false []
  let r1 := if scanned.1 then clean ++ ['"'] else clean
  let r2 := pyRstrip r1
  let r3 :=
    if r2.getLast? = some ',' then r2.dropLast
    else if r2.getLast? = some ':' then r2 ++ ['n', 'u', 'l', 'l']
    else r2
  r3 ++ scanned.2

/-- The fixed closer suffixes tried by the truncation fallback, in order. -/
def closerSuffixes : List (List Char) :=
  [[], [Char.ofNat 125], [']'], [']', Char.ofNat 125], ['}', Char.ofNat 125], [']', '}', Char.ofNat 125]]

/-- The candidate cut prefixes of the truncation fallback: prefixes of the
cleaned text ending at a closing bracket, nearest to the end first, at
most five of them. -/
def candidateCuts (cs : List Char) : List (List Char) :=
  (((List.range cs.length).reverse).filterMap (fun i =>
    match cs.get? i with
    | some c => if isCloseBracket c then some (cs.take (i + 1)) else none
    | none => none)).take 5

/-- First successful strict parse among a list of attempts. -/
def firstParse : List (List Char) → Option Json
  | [] => none
  | t :: ts =>
    match jsonParse t with
    | some v => some v
    | none => firstParse ts

/-- Stage 4 of `_safe_json_parse`: for each candidate cut (nearest the end
first) try each closer suffix in order, returning the first value that
parses strictly. -/
def truncationFallback (clean : List Char) : Option Json :=
  firstParse ((candidateCuts clean).flatMap (fun cand =>
    closerSuffixes.map (fun cl => cand ++ cl)))

/-- Model of `_safe_json_parse`: clean the text, try a strict parse, then
the token-balancer repair, then the truncation fallback; `none` models the
final `raise ValueError("JSON Repair Failed...")`. -/
def safeJsonParse (s : List Char) : Option Json :=
  let clean := cleanText s
  match jsonParse clean with
  | some v => some v
  | none =>
    match jsonParse (balance clean) with
    | some v => some v
    | none => truncationFallback clean

/-- Does `s` start with `pat`? -/
def listStartsWith : List Char → List Char → Bool
  | [], _ => true
  | _ :: _, [] => false
  | p :: ps, c :: cs => p = c && listStartsWith ps cs

/-- Python's `pat in s` substring test. -/
def containsSub (pat : List Char) : List Char → Bool
  | [] => listStartsWith pat []
  | c :: rest => listStartsWith pat (c :: rest) || containsSub pat rest

/-- `_with_retry`'s rate-limit classification:
`"429" in msg or "RESOURCE_EXHAUSTED" in msg`. -/
def isRateLimit (msg : String) : Bool :=
  containsSub "429".toList msg.toList || containsSub "RESOURCE_EXHAUSTED".toList msg.toList

/-- `_with_retry`'s overload classification:
`"503" in msg or "overloaded" in msg or "UNAVAILABLE" in msg`. -/
def isOverloaded (msg : String) : Bool :=
  containsSub "503".toList msg.toList || containsSub "overloaded".toList msg.toList ||
    containsSub "UNAVAILABLE".toList msg.toList

/-- An error whose message `_with_retry` classifies as retryable. -/
def isTransient (msg : String) : Bool := isRateLimit msg || isOverloaded msg

/-- Rational denoted by integer digits and fraction digits. -/
def ratOfDecimal (ds fs : List Char) : ℚ :=
  mkRat ((digitsToNat ds * 10 ^ fs.length + digitsToNat fs : ℕ) : ℤ) (10 ^ fs.length)

/-- Match of the regex `retry in\s+(\d+(\.\d+)?)s` (IGNORECASE) anchored at
the start of `cs`; returns the captured number of seconds. -/
def matchRetryAt (cs : List Char) : Option ℚ :=
  match cs with
  | a1 :: a2 :: a3 :: a4 :: a5 :: a6 :: a7 :: a8 :: rest =>
    if ciIs a1 'r' && ciIs a2 'e' && ciIs a3 't' && ciIs a4 'r' && ciIs a5 'y' &&
       a6 = ' ' && ciIs a7 'i' && ciIs a8 'n' then
      let ws := rest.takeWhile isPyWs
      if ws = [] then none
      else
        let r3 := rest.dropWhile isPyWs
        let ds := r3.takeWhile Char.isDigit
        if ds = [] then none
        else
          let r4 := r3.drop ds.length
          match r4 with
          | '.' :: r5 =>
            let fs := r5.takeWhile Char.isDigit
            if fs = [] then none
            else
              match r5.drop fs.length with
              | c :: _ => if ciIs c 's' then some (ratOfDecimal ds fs) else none
              | [] => none
          | c :: _ => if ciIs c 's' then some (ratOfDecimal ds []) else none
          | [] => none
    else none
  | _ => none

/-- Python `re.search(r"retry in\s+(\d+(\.\d+)?)s", msg, re.IGNORECASE)`:
the leftmost match, scanned left to right. -/
def findRetryIn : List Char → Option ℚ
  | [] => none
  | c :: rest =>
    match matchRetryAt (c :: rest) with
    | some q => some q
    | none => findRetryIn rest

/-- The backoff delay `_with_retry` sleeps before retrying attempt
`attempt` (1-indexed): exponential `2 * 2^(attempt-1)` seconds, overridden
by an explicit `retry in <x>s` figure found in the error message. -/
def computeDelay (attempt : ℕ) (msg : String) : ℚ :=
  match findRetryIn msg.toList with
  | some q => q
  | none => 2 * 2 ^ (attempt - 1)

/-- Observable trace of one `_with_retry` invocation: the final outcome,
the list of sleeps performed (in order), and the 1-indexed attempt numbers
at which the wrapped operation was invoked (in order). -/
structure RetryTrace (V : Type) where
  result : Except String V
  delays : List ℚ
  calls : List ℕ

/-- Model of `_with_retry`: the wrapped operation is modelled as a function
from the attempt number to its outcome on that invocation.  A transient
failure with `attempt ≤ maxRetries` sleeps `computeDelay` and re-invokes at
`attempt + 1`; anything else resolves immediately.  Termination of the
recursion is exactly the code's argument: the attempt counter strictly
increases toward the bound. -/
def withRetry {V : Type} (op : ℕ → Except String V) (attempt maxRetries : ℕ) :
    RetryTrace V :=
  match op attempt with
  | .ok v => ⟨.ok v, [], [attempt]⟩
  | .error msg =>
    if h : isTransient msg = true ∧ attempt ≤ maxRetries then
      let t := withRetry op (attempt + 1) maxRetries
      ⟨t.result, computeDelay attempt msg :: t.delays, attempt :: t.calls⟩
    else ⟨.error msg, [], [attempt]⟩
termination_by maxRetries + 1 - attempt
decreasing_by omega

/-- Python truthiness of a JSON-shaped value (`None`, `False`, `0`, `""`,
`[]`, `{}` are falsy). -/
def pyTruthy : Json → Bool
  | .null => false
  | .bool b => b
  | .num q => q ≠ 0
  | .str s => s ≠ ""
  | .arr xs => !xs.isEmpty
  | .obj kvs => !kvs.isEmpty

/-- Python `float(string)`: optional surrounding whitespace and sign, then
digits with an optional dot on either side and an optional exponent.
`inf`/`nan` spellings and digit-group underscores are not modelled (no
claim exercises them). -/
def parsePyFloat (cs : List Char) : Option ℚ :=
  let t := pyStrip cs
  let signed : Bool × List Char :=
    match t with
    | '-' :: r => (true, r)
    | '+' :: r => (false, r)
    | _ => (false, t)
  let intDigits := signed.2.takeWhile Char.isDigit
  let r2 := signed.2.drop intDigits.length
  let fracStep : List Char × List Char :=
    match r2 with
    | '.' :: rr => (rr.takeWhile Char.isDigit, rr.drop (rr.takeWhile Char.isDigit).length)
    | _ => ([], r2)
  if intDigits = [] ∧ fracStep.1 = [] then none
  else
    let expStep : Option (Option ℤ × List Char) :=
      match fracStep.2 with
      | e :: rr =>
        if e = 'e' ∨ e = 'E' then
          let signedE : ℤ × List Char :=
            match rr with
            | '+' :: u => (1, u)
            | '-' :: u => (-1, u)
            | _ => (1, rr)
          let eds := signedE.2.takeWhile Char.isDigit
          if eds = [] then none
          else some (some (signedE.1 * (digitsToNat eds : ℤ)), signedE.2.drop eds.length)
        else some (none, fracStep.2)
      | [] => some (none, [])
    match expStep with
    | none => none
    | some (eo, r4) =>
      if r4 ≠ [] then none
      else
        let mant : ℚ :=
          mkRat (digitsToNat (intDigits ++ fracStep.1) : ℤ) (10 ^ fracStep.1.length)
        let s := if signed.1 then -mant else mant
        some (match eo with
          | none => s
          | some e =>
            if 0 ≤ e then mkRat (s.num * (10 : ℤ) ^ e.toNat) s.den
            else mkRat s.num (s.den * 10 ^ (-e).toNat))

/-- Python `float(x)` on a JSON-shaped value: numbers pass through, `True`
and `False` become 1 and 0, numeric strings are parsed, everything else
raises. -/
def pyFloat : Json → Except String ℚ
  | .num q => .ok q
  | .bool b => .ok (if b then 1 else 0)
  | .str s =>
    match parsePyFloat s.toList with
    | some q => .ok q
    | none => .error "ValueError: could not convert string to float"
  | .null => .error "TypeError: float() argument must not be None"
  | .arr _ => .error "TypeError: float() argument must be a string or a number"
  | .obj _ => .error "TypeError: float() argument must be a string or a number"

/-- Python `str(x)` on a JSON-shaped value, for the cases the line-item
matrix can contain (strings, integers, booleans, None); rendering of
non-integer floats and containers is not modelled — no claim exercises it. -/
def pyToStr : Json → Except String String
  | .str s => .ok s
  | .bool b => .ok (if b then "True" else "False")
  | .null => .ok "None"
  | .num q => if q.den = 1 then .ok (toString q.num) else .error "str() of non-integer numbers not modelled"
  | _ => .error "str() of containers not modelled"

/-- `row[i]` guarded by `len(row) > i`, with a missing cell behaving like
`None` (both are falsy, which is all the guarded uses observe). -/
def cellAt (cells : List Json) (i : ℕ) : Json := (cells.get? i).getD .null

/-- `str(row[i]) if len(row) > i and row[i] else None`. -/
def strOrNone (cells : List Json) (i : ℕ) : Except String Json :=
  if pyTruthy (cellAt cells i) then do
    let s ← pyToStr (cellAt cells i)
    pure (.str s)
  else pure .null

/-- `str(row[i]) if len(row) > i and row[i] else default`. -/
def strOrDefault (cells : List Json) (i : ℕ) (d : String) : Except String Json :=
  if pyTruthy (cellAt cells i) then do
    let s ← pyToStr (cellAt cells i)
    pure (.str s)
  else pure (.str d)

/-- `float(row[i]) if len(row) > i and row[i] else 0.0` — note a truthy
non-numeric cell makes `float` raise. -/
def numOrZero (cells : List Json) (i : ℕ) : Except String Json :=
  if pyTruthy (cellAt cells i) then do
    let q ← pyFloat (cellAt cells i)
    pure (.num q)
  else pure (.num 0)

/-- `str(row[0]) if row[0] is not None else "Item Desconhecido"` (an
`is not None` test, not truthiness: an empty string stays empty). -/
def descCell (cells : List Json) : Except String Json :=
  match cells.get? 0 with
  | some .null => pure (.str "Item Desconhecido")
  | none => pure (.str "Item Desconhecido")
  | some v => do
    let s ← pyToStr v
    pure (.str s)

/-- One positional matrix row of `_parse_line_items`, mapped to the keyed
item dict (in the code's key order); a zero-length row is skipped. -/
def rowToItem (cells : List Json) : Except String (Option Json) :=
  if cells.length = 0 then pure none
  else do
    let d ← descCell cells
    let pn ← strOrNone cells 1
    let q ← numOrZero cells 2
    let um ← strOrDefault cells 3 "UN"
    let up ← numOrZero cells 4
    let tot ← numOrZero cells 5
    let nw ← numOrZero cells 6
    let mr ← strOrNone cells 7
    let ncm ← strOrNone cells 8
    pure (some (.obj [("description", d), ("partNumber", pn), ("quantity", q),
      ("unitMeasure", um), ("unitPrice", up), ("total", tot), ("netWeight", nw),
      ("manufacturerRef", mr), ("ncm", ncm), ("productCode", .null),
      ("taxClassificationDetail", .null), ("unitNetWeight", .num 0),
      ("manufacturerCode", .null)]))

/-- Model of `_parse_line_items`: a list whose first element is a list is
treated as the positional matrix; any other list passes through unchanged
(already-keyed fallback shape); a dict is unwrapped at its `"lineItems"`
key when present; anything else yields an empty item list.  Non-list rows
inside the matrix raise (Python would index into them as sequences only
for strings; no claim exercises that). -/
def parseLineItems (raw : Json) : Except String Json :=
  match raw with
  | .arr rows =>
    match rows with
    | (.arr _) :: _ => do
      let items ← rows.mapM (fun row =>
        match row with
        | .arr cells => rowToItem cells
        | _ => Except.error "TypeError: matrix row is not a list")
      pure (.arr (items.filterMap id))
    | _ => pure (.arr rows)
  | .obj kvs =>
    match objGet kvs "lineItems" with
    | some v => pure v
    | none => pure (.arr [])
  | _ => pure (.arr [])

/-- The fixed list of numeric header fields normalized by
`_post_process_invoice_data`. -/
def numericFields : List String :=
  ["grandTotal", "totalNetWeight", "totalGrossWeight", "totalPackages",
   "freightValue", "insuranceValue", "otherChargesValue"]

/-- `float(result[field]) if result[field] is not None else 0.0`, with a
missing field also becoming `0.0`. -/
def headerCoerce (v : Option Json) : Except String ℚ :=
  match v with
  | none => .ok 0
  | some .null => .ok 0
  | some w => pyFloat w

/-- The header-normalization loop of `_post_process_invoice_data`, one
field at a time in the code's order. -/
def processFields : List String → List (String × Json) → Except String (List (String × Json))
  | [], acc => .ok acc
  | f :: fs, acc => do
    let q ← headerCoerce (objGet acc f)
    processFields fs (objSet acc f (.num q))

/-- `float(item.get(key, 0) or 0)`. -/
def coerceItemNum (kvs : List (String × Json)) (key : String) : Except String ℚ :=
  let v := (objGet kvs key).getD (.num 0)
  if pyTruthy v then pyFloat v else pyFloat (.num 0)

/-- Rational multiplication written with an explicit `mkRat`
normalization; propositionally equal to `a * b` (`qMul_eq_mul` below). -/
def qMul (a b : ℚ) : ℚ := mkRat (a.num * b.num) (a.den * b.den)

/-- Rational division written with an explicit `mkRat` normalization;
propositionally equal to `a / b` (`qDiv_eq_div` below), with the same
`a / 0 = 0` convention. -/
def qDiv (a b : ℚ) : ℚ :=
  if 0 ≤ b.num then mkRat (a.num * (b.den : ℤ)) (a.den * b.num.toNat)
  else mkRat (-(a.num * (b.den : ℤ))) (a.den * (-b.num).toNat)

/-- Round a rational to the nearest integer, halves away from floor
(`⌊q + 1/2⌋`, computed on numerator and denominator); propositionally
equal to Mathlib's `round` (`qRound_eq_round` below). -/
def qRound (q : ℚ) : ℤ := (2 * q.num + q.den) / (2 * (q.den : ℤ))

/-- Exact decimal rounding to 6 places, modelling `float(f"{x:.6f}")`
(Python formats the underlying binary float with half-to-even ties; on the
exact rationals of this model the difference shows only at exact half-way
points and binary-representation noise, which no claim exercises). -/
def round6 (q : ℚ) : ℚ := mkRat (qRound (mkRat (q.num * 1000000) q.den)) 1000000

/-- Exact decimal rounding to 4 places, modelling `float(f"{x:.4f}")`. -/
def round4 (q : ℚ) : ℚ := mkRat (qRound (mkRat (q.num * 10000) q.den)) 10000

/-- The per-item normalization of `_post_process_invoice_data`: coerce
quantity and the weights, apply the two derived-weight rules, then write
back quantity, weights, unit price, total and the constant weight unit.
A non-dict item raises (`item.get` on it fails). -/
def processItem : Json → Except String Json
  | .obj kvs => do
    let qty ← coerceItemNum kvs "quantity"
    let nw ← coerceItemNum kvs "netWeight"
    let unw ← coerceItemNum kvs "unitNetWeight"
    let weights : ℚ × ℚ :=
      if 0 < nw ∧ 0 < qty then (nw, round6 (qDiv nw qty))
      else if 0 < unw ∧ 0 < qty then (round4 (qMul unw qty), unw)
      else (nw, unw)
    let k1 := objSet kvs "quantity" (.num qty)
    let k2 := objSet k1 "netWeight" (.num weights.1)
    let k3 := objSet k2 "unitNetWeight" (.num weights.2)
    let up ← coerceItemNum k3 "unitPrice"
    let k4 := objSet k3 "unitPrice" (.num up)
    let tot ← coerceItemNum k4 "total"
    let k5 := objSet k4 "total" (.num tot)
    pure (.obj (objSet k5 "weightUnit" (.str "KG")))
  | _ => .error "AttributeError: item has no attribute get"

/-- Model of `_post_process_invoice_data`: normalize the numeric header
fields, then, when `lineItems` is present and is a list, normalize each
item. -/
def postProcess (data : List (String × Json)) : Except String (List (String × Json)) := do
  let r1 ← processFields numericFields data
  match objGet r1 "lineItems" with
  | some (.arr items) => do
    let items' ← items.mapM processItem
    pure (objSet r1 "lineItems" (.arr items'))
  | _ => pure r1

/-- The merge step of `extract_invoice_data`: parse the raw line-items
value, shallow-merge `{**metadata, "lineItems": items}` and post-process.
The metadata argument is the parsed metadata dict (a non-dict metadata
value makes the Python `{**metadata, ...}` splat raise before this point). -/
def mergePost (metadata : List (String × Json)) (rawItems : Json) :
    Except String (List (String × Json)) := do
  let lineItemsVal ← parseLineItems rawItems
  postProcess (objSet metadata "lineItems" lineItemsVal)

/-- One line item of the final record, mirroring `models.py`'s pydantic
`LineItem` model field for field. -/
structure LineItem where
  description : String
  partNumber : Option String
  quantity : ℚ
  unitMeasure : String
  unitPrice : ℚ
  total : ℚ
  netWeight : ℚ
  manufacturerRef : Option String
  ncm : Option String
  productCode : Option String
  taxClassificationDetail : Option String
  unitNetWeight : Option ℚ
  weightUnit : String

/-- The final invoice record, mirroring `models.py`'s pydantic
`InvoiceData` model field for field. -/
structure InvoiceData where
  invoiceNumber : Option String
  date : Option String
  exporterName : Option String
  importerName : Option String
  currency : Option String
  grandTotal : ℚ
  incoterm : Option String
  exporterAddress : Option String
  exporterTaxId : Option String
  importerAddress : Option String
  importerTaxId : Option String
  countryOfOrigin : Option String
  countryOfAcquisition : Option String
  countryOfProvenance : Option String
  portOfLoading : Option String
  portOfDischarge : Option String
  totalNetWeight : ℚ
  totalGrossWeight : ℚ
  totalPackages : ℤ
  volumeType : Option String
  paymentTerms : Option String
  freightValue : ℚ
  insuranceValue : ℚ
  otherChargesValue : ℚ
  lineItems : List LineItem

/-- Pydantic validation of an `Optional[str] = None` field: absent or
null becomes `none`, a string passes, other shapes are rejected
(version-specific lenient coercions of numbers to strings are not
modelled — no claim exercises them). -/
def validateOptStr (v : Option Json) : Except String (Option String) :=
  match v with
  | none => .ok none
  | some .null => .ok none
  | some (.str s) => .ok (some s)
  | some _ => .error "validation error: string expected"

/-- Pydantic validation of a `str` field with an optional declared
default: absent takes the default (or fails when there is none), a
string passes, other shapes are rejected. -/
def validateStrD (v : Option Json) (d : Option String) : Except String String :=
  match v, d with
  | none, some dv => .ok dv
  | none, none => .error "validation error: field required"
  | some (.str s), _ => .ok s
  | some _, _ => .error "validation error: string expected"

/-- Pydantic validation of a `float = d` field: absent takes the default,
a number passes, null and other shapes are rejected (lenient
numeric-string coercion is not modelled — the merge stage always supplies
numbers here). -/
def validateFloatD (v : Option Json) (d : ℚ) : Except String ℚ :=
  match v with
  | none => .ok d
  | some (.num q) => .ok q
  | some _ => .error "validation error: number expected"

/-- Pydantic validation of a required `float` field. -/
def validateFloatReq (v : Option Json) : Except String ℚ :=
  match v with
  | some (.num q) => .ok q
  | _ => .error "validation error: number required"

/-- Pydantic validation of the `int = 0` field `totalPackages`: a number
must be integral (pydantic v2 lax mode; v1's truncating coercion of
non-integral floats is not modelled — no claim exercises it). -/
def validateIntD (v : Option Json) (d : ℤ) : Except String ℤ :=
  match v with
  | none => .ok d
  | some (.num q) => if q.den = 1 then .ok q.num else .error "validation error: integer expected"
  | some _ => .error "validation error: integer expected"

/-- Pydantic validation of the `Optional[float] = 0` field
`unitNetWeight`: absent takes the default, null becomes `none`, a number
passes. -/
def validateOptFloatD (v : Option Json) (d : Option ℚ) : Except String (Option ℚ) :=
  match v with
  | none => .ok d
  | some .null => .ok none
  | some (.num q) => .ok (some q)
  | some _ => .error "validation error: number expected"

/-- Pydantic construction of one `LineItem` from a JSON value: the value
must be an object (extra keys are ignored, as pydantic does by default);
each declared field is validated per its annotation in `models.py`. -/
def validateLineItem : Json → Except String LineItem
  | .obj kvs => do
    let d ← validateStrD (objGet kvs "description") none
    let pn ← validateOptStr (objGet kvs "partNumber")
    let q ← validateFloatReq (objGet kvs "quantity")
    let um ← validateStrD (objGet kvs "unitMeasure") none
    let up ← validateFloatReq (objGet kvs "unitPrice")
    let tot ← validateFloatReq (objGet kvs "total")
    let nw ← validateFloatReq (objGet kvs "netWeight")
    let mr ← validateOptStr (objGet kvs "manufacturerRef")
    let ncm2 ← validateOptStr (objGet kvs "ncm")
    let pc ← validateOptStr (objGet kvs "productCode")
    let tcd ← validateOptStr (objGet kvs "taxClassificationDetail")
    let unw ← validateOptFloatD (objGet kvs "unitNetWeight") (some 0)
    let wu ← validateStrD (objGet kvs "weightUnit") (some "KG")
    pure ⟨d, pn, q, um, up, tot, nw, mr, ncm2, pc, tcd, unw, wu⟩
  | _ => .error "validation error: line item must be an object"

/-- Pydantic validation of the `lineItems: List[LineItem] = []` field:
absent defaults to the empty list, a JSON array is validated element-wise,
and any non-list shape (number, string, null, object) fails `InvoiceData`
construction in every pydantic version. -/
def validateLineItemsField (v : Option Json) : Except String (List LineItem) :=
  match v with
  | none => .ok []
  | some (.arr xs) => xs.mapM validateLineItem
  | some _ => .error "validation error: value is not a valid list"

/-- The optional text fields of `InvoiceData`, validated as one group
(pydantic validates fields independently, so grouping does not change
which records are accepted). -/
structure InvoiceTextFields where
  invoiceNumber : Option String
  date : Option String
  exporterName : Option String
  importerName : Option String
  currency : Option String
  incoterm : Option String
  exporterAddress : Option String
  exporterTaxId : Option String
  importerAddress : Option String
  importerTaxId : Option String
  countryOfOrigin : Option String
  countryOfAcquisition : Option String
  countryOfProvenance : Option String
  portOfLoading : Option String
  portOfDischarge : Option String
  volumeType : Option String
  paymentTerms : Option String

/-- Validation of all `Optional[str]` header fields of `InvoiceData`. -/
def validateTextFields (r : List (String × Json)) : Except String InvoiceTextFields := do
  let f1 ← validateOptStr (objGet r "invoiceNumber")
  let f2 ← validateOptStr (objGet r "date")
  let f3 ← validateOptStr (objGet r "exporterName")
  let f4 ← validateOptStr (objGet r "importerName")
  let f5 ← validateOptStr (objGet r "currency")
  let f6 ← validateOptStr (objGet r "incoterm")
  let f7 ← validateOptStr (objGet r "exporterAddress")
  let f8 ← validateOptStr (objGet r "exporterTaxId")
  let f9 ← validateOptStr (objGet r "importerAddress")
  let f10 ← validateOptStr (objGet r "importerTaxId")
  let f11 ← validateOptStr (objGet r "countryOfOrigin")
  let f12 ← validateOptStr (objGet r "countryOfAcquisition")
  let f13 ← validateOptStr (objGet r "countryOfProvenance")
  let f14 ← validateOptStr (objGet r "portOfLoading")
  let f15 ← validateOptStr (objGet r "portOfDischarge")
  let f16 ← validateOptStr (objGet r "volumeType")
  let f17 ← validateOptStr (objGet r "paymentTerms")
  pure ⟨f1, f2, f3, f4, f5, f6, f7, f8, f9, f10, f11, f12, f13, f14, f15, f16, f17⟩

/-- Model of `InvoiceData(**final_result)`: pydantic construction of the
final record from the merged dict.  Pydantic validates the declared
fields independently of each other, so the validation order below is
immaterial to which dicts are accepted. -/
def validateInvoiceData (r : List (String × Json)) : Except String InvoiceData := do
  let li ← validateLineItemsField (objGet r "lineItems")
  let gT ← validateFloatD (objGet r "grandTotal") 0
  let tNW ← validateFloatD (objGet r "totalNetWeight") 0
  let tGW ← validateFloatD (objGet r "totalGrossWeight") 0
  let tP ← validateIntD (objGet r "totalPackages") 0
  let fV ← validateFloatD (objGet r "freightValue") 0
  let iV ← validateFloatD (objGet r "insuranceValue") 0
  let oCV ← validateFloatD (objGet r "otherChargesValue") 0
  let ts ← validateTextFields r
  pure ⟨ts.invoiceNumber, ts.date, ts.exporterName, ts.importerName, ts.currency, gT,
    ts.incoterm, ts.exporterAddress, ts.exporterTaxId, ts.importerAddress, ts.importerTaxId,
    ts.countryOfOrigin, ts.countryOfAcquisition, ts.countryOfProvenance, ts.portOfLoading,
    ts.portOfDischarge, tNW, tGW, tP, ts.volumeType, ts.paymentTerms, fV, iV, oCV, li⟩

/-- The merge-and-validate tail of `extract_invoice_data`: the shallow
merge and post-processing (`mergePost`) followed by the
`InvoiceData(**final_result)` construction of `models.py`. -/
def extractRecord (metadata : List (String × Json)) (rawItems : Json) :
    Except String InvoiceData := do
  let r ← mergePost metadata rawItems
  validateInvoiceData r

/-- A wrapped operation that fails its first two invocations with rate-limit
markers and then succeeds (concrete witness operation). -/
def c5OpTransient : ℕ → Except String ℕ
  | 1 => .error "HTTP 429 Too Many Requests"
  | 2 => .error "429 RESOURCE_EXHAUSTED"
  | _ => .ok 7

/-- A wrapped operation that always fails with a non-transient message
(concrete witness operation). -/
def c5OpFatal : ℕ → Except String ℕ := fun _ => .error "400 invalid argument"

/-- A wrapped operation whose error message carries an explicit
`retry in 7.5s` figure (concrete witness operation). -/
def c9OpOverride : ℕ → Except String ℕ := fun _ => .error "429: retry in 7.5s"

/-- A wrapped operation whose overload error message carries no explicit
retry figure (concrete witness operation). -/
def c9OpPlain : ℕ → Except String ℕ := fun _ => .error "503 server overloaded"

/-! ## General lemmas about the embedded operations -/

/-- Binding a failed `Except` computation propagates the failure. -/
theorem exceptErrorBind {e a b : Type} (x : e) (f : a → Except e b) :
    (Except.error x >>= f) = Except.error x := rfl

/-- Binding a successful `Except` computation applies the continuation. -/
theorem exceptOkBind {e a b : Type} (x : a) (f : a → Except e b) :
    (Except.ok x >>= f) = f x := rfl

/-- `pure` in the `Except` monad is `Except.ok`. -/
theorem exceptPureEq {e a : Type} (x : a) : (pure x : Except e a) = Except.ok x := rfl

/-- Reading a dict key just written yields the written value. -/
theorem objGet_objSet_self (m : List (String × Json)) (k : String) (v : Json) :
    objGet (objSet m k v) k = some v := by
  induction m with
  | nil => simp [objSet, objGet]
  | cons p rest ih =>
    obtain ⟨k', v'⟩ := p
    by_cases h : k' = k
    · subst h; simp [objSet, objGet]
    · simp [objSet, objGet, h, ih]

/-- Writing one dict key leaves every other key unchanged. -/
theorem objGet_objSet_ne (m : List (String × Json)) (k k' : String) (v : Json)
    (h : k ≠ k') : objGet (objSet m k v) k' = objGet m k' := by
  induction m with
  | nil => simp [objSet, objGet, h]
  | cons p rest ih =>
    obtain ⟨a, b⟩ := p
    by_cases ha : a = k
    · subst ha; simp [objSet, objGet, h]
    · by_cases ha' : a = k'
      · subst ha'; simp [objSet, objGet, ha]
      · simp [objSet, objGet, ha, ha', ih]

/-- The attempts recorded by `withRetry` from attempt `a` form a contiguous
run `a, a+1, …` whose length is bounded by the remaining attempt budget. -/
theorem withRetry_calls {V : Type} (op : ℕ → Except String V) (a m : ℕ) :
    ∃ k, 1 ≤ k ∧ (withRetry op a m).calls = List.range' a k ∧ k ≤ max (m + 2 - a) 1 := by
  rw [withRetry]
  cases hop : op a with
  | ok v =>
    exact ⟨1, le_refl 1, by simp [List.range'], by omega⟩
  | error msg =>
    by_cases hc : isTransient msg = true ∧ a ≤ m
    · simp only [dif_pos hc]
      obtain ⟨k', hk1, hk2, hk3⟩ := withRetry_calls op (a + 1) m
      refine ⟨k' + 1, by omega, ?_, by omega⟩
      simpa [List.range'] using hk2
    · simp only [dif_neg hc]
      exact ⟨1, le_refl 1, by simp [List.range'], by omega⟩
termination_by m + 1 - a
decreasing_by omega

/-- The fueled trailing-comma scan is the identity on text with no
comma-whitespace-closer occurrence, whatever the fuel. -/
theorem fixTrailingCommasAux_id : ∀ (fuel : ℕ) (cs : List Char),
    hasCommaCloser cs = false → fixTrailingCommasAux fuel cs = cs := by
  intro fuel
  induction fuel with
  | zero => intro cs _; cases cs <;> rfl
  | succ n ih =>
    intro cs h
    match cs with
    | [] => rfl
    | c :: rest =>
      simp only [hasCommaCloser, Bool.or_eq_false_iff, Bool.and_eq_false_iff] at h
      obtain ⟨h1, h2⟩ := h
      by_cases hc : c = ','
      · subst hc
        cases hd : rest.dropWhile isPyWs with
        | nil => simp [fixTrailingCommasAux, hd, ih rest h2]
        | cons c2 r3 =>
          have hcl : isCloseBracket c2 = false := by
            rcases h1 with h1 | h1
            · simp at h1
            · rw [hd] at h1; exact h1
          simp [fixTrailingCommasAux, hd, hcl, ih rest h2]
      · simp [fixTrailingCommasAux, hc, ih rest h2]

/-- The header-normalization loop: keys outside the processed field list
are untouched, and every processed field holds the coerced number of its
value in the starting dict (fields assumed pairwise distinct, as the
code's literal list is). -/
theorem processFields_spec : ∀ (fs : List String) (acc r : List (String × Json)),
    fs.Pairwise (· ≠ ·) → processFields fs acc = .ok r →
    (∀ k, k ∉ fs → objGet r k = objGet acc k) ∧
    (∀ f ∈ fs, ∃ q, headerCoerce (objGet acc f) = .ok q ∧ objGet r f = some (.num q)) := by
  intro fs
  induction fs with
  | nil =>
    intro acc r _ h
    simp only [processFields] at h
    cases h
    exact ⟨fun k _ => rfl, fun f hf => absurd hf (List.not_mem_nil f)⟩
  | cons f fs ih =>
    intro acc r hp h
    simp only [processFields] at h
    cases hc : headerCoerce (objGet acc f) with
    | error e => rw [hc, exceptErrorBind] at h; exact Except.noConfusion h
    | ok q =>
      rw [hc, exceptOkBind] at h
      have hp1 : ∀ x ∈ fs, f ≠ x := (List.pairwise_cons.mp hp).1
      have hp2 := (List.pairwise_cons.mp hp).2
      obtain ⟨ihA, ihB⟩ := ih (objSet acc f (.num q)) r hp2 h
      constructor
      · intro k hk
        have hkf : f ≠ k := fun he => hk (he ▸ List.mem_cons_self f fs)
        have hknotfs : k ∉ fs := fun hin => hk (List.mem_cons_of_mem f hin)
        rw [ihA k hknotfs, objGet_objSet_ne _ _ _ _ hkf]
      · intro g hg
        rcases List.mem_cons.mp hg with hgf | hgfs
        · subst hgf
          have hfnot : g ∉ fs := fun hin => (hp1 g hin) rfl
          refine ⟨q, hc, ?_⟩
          rw [ihA g hfnot, objGet_objSet_self]
        · obtain ⟨q', hq1, hq2⟩ := ihB g hgfs
          refine ⟨q', ?_, hq2⟩
          rwa [objGet_objSet_ne _ _ _ _ (hp1 g hgfs)] at hq1

/-- A rational multiplied by its denominator gives its numerator. -/
theorem ratMulDen (a : ℚ) : (a.den : ℚ) * a = a.num := by
  rw [mul_comm, Rat.mul_den_eq_num]

/-- The explicit-normalization multiplication agrees with `*` on `ℚ`. -/
theorem qMul_eq_mul (a b : ℚ) : qMul a b = a * b := by
  unfold qMul
  rw [Rat.mkRat_eq_div]
  push_cast
  rw [← div_mul_div_comm, Rat.num_div_den, Rat.num_div_den]

/-- The explicit-normalization division agrees with `/` on `ℚ`. -/
theorem qDiv_eq_div (a b : ℚ) : qDiv a b = a / b := by
  unfold qDiv
  by_cases hb : b = 0
  · subst hb
    norm_num [Rat.mkRat_eq_div]
  · have hbn0 : b.num ≠ 0 := Rat.num_ne_zero.mpr hb
    have hda : (a.den : ℚ) ≠ 0 := Nat.cast_ne_zero.mpr a.den_ne_zero
    have ha : (a.den : ℚ) * a = a.num := ratMulDen a
    have hbeq : (b.den : ℚ) * b = b.num := ratMulDen b
    rcases le_or_lt 0 b.num with hbn | hbn
    · rw [if_pos hbn, Rat.mkRat_eq_div]
      have h0 : (b.num.toNat : ℤ) = b.num := Int.toNat_of_nonneg hbn
      have hq : ((b.num.toNat : ℕ) : ℚ) = ((b.num : ℤ) : ℚ) := by exact_mod_cast h0
      have hden : ((a.den * b.num.toNat : ℕ) : ℚ) ≠ 0 := by
        push_cast
        rw [hq]
        exact mul_ne_zero hda (Int.cast_ne_zero.mpr hbn0)
      rw [div_eq_div_iff hden hb]
      push_cast
      rw [hq]
      calc (a.num : ℚ) * b.den * b = (a.num : ℚ) * ((b.den : ℚ) * b) := by ring
        _ = (a.num : ℚ) * b.num := by rw [hbeq]
        _ = ((a.den : ℚ) * a) * b.num := by rw [ha]
        _ = a * ((a.den : ℚ) * b.num) := by ring
    · rw [if_neg (not_le.mpr hbn), Rat.mkRat_eq_div]
      have h0 : (((-b.num).toNat : ℕ) : ℤ) = -b.num := Int.toNat_of_nonneg (by omega)
      have hq : (((-b.num).toNat : ℕ) : ℚ) = -((b.num : ℤ) : ℚ) := by exact_mod_cast h0
      have hden : ((a.den * (-b.num).toNat : ℕ) : ℚ) ≠ 0 := by
        push_cast
        rw [hq]
        refine mul_ne_zero hda ?_
        simp only [ne_eq, neg_eq_zero]
        exact Int.cast_ne_zero.mpr hbn0
      rw [div_eq_div_iff hden hb]
      push_cast
      rw [hq]
      calc (-(a.num * b.den) : ℚ) * b = -((a.num : ℚ) * ((b.den : ℚ) * b)) := by ring
        _ = -((a.num : ℚ) * b.num) := by rw [hbeq]
        _ = -(((a.den : ℚ) * a) * b.num) := by rw [ha]
        _ = a * ((a.den : ℚ) * -b.num) := by ring

/-- The numerator-denominator rounding computation agrees with Mathlib's
`round` on `ℚ`. -/
theorem qRound_eq_round (q : ℚ) : qRound q = round q := by
  have ha : (q.den : ℚ) * q = q.num := ratMulDen q
  have hd0 : (q.den : ℚ) ≠ 0 := Nat.cast_ne_zero.mpr q.den_ne_zero
  have hden2 : ((2 * q.den : ℕ) : ℚ) ≠ 0 := by
    push_cast
    exact mul_ne_zero two_ne_zero hd0
  have key : q + 1 / 2 = ((2 * q.num + q.den : ℤ) : ℚ) / ((2 * q.den : ℕ) : ℚ) := by
    rw [eq_div_iff hden2]
    push_cast
    linear_combination 2 * ha
  rw [round_eq, key, Rat.floor_intCast_div_natCast]
  unfold qRound
  push_cast
  rfl

/-- The model's 6-decimal rounding is rounding of the scaled value. -/
theorem round6_eq_round (x : ℚ) : round6 x = ((round (x * 1000000) : ℤ) : ℚ) / 1000000 := by
  unfold round6
  rw [Rat.mkRat_eq_div, qRound_eq_round]
  have harg : (mkRat (x.num * 1000000) x.den : ℚ) = x * 1000000 := by
    rw [Rat.mkRat_eq_div]
    push_cast
    conv_rhs => rw [← Rat.num_div_den x]
    ring
  rw [harg]
  norm_num

/-- When `_post_process_invoice_data` succeeds on an item whose coerced
net weight and quantity are both positive, the written `unitNetWeight` is
the 6-decimal rounding of their quotient. -/
theorem processItem_unitNetWeight (kvs : List (String × Json)) (r' : Json) (q n : ℚ)
    (hpi : processItem (.obj kvs) = .ok r')
    (hn : coerceItemNum kvs "netWeight" = .ok n)
    (hq : coerceItemNum kvs "quantity" = .ok q)
    (h1 : 0 < n) (h2 : 0 < q) :
    ∃ okvs, r' = .obj okvs ∧
      objGet okvs "unitNetWeight" = some (.num (round6 (n / q))) := by
  simp only [processItem] at hpi
  rw [hq, exceptOkBind] at hpi
  rw [hn, exceptOkBind] at hpi
  cases hu : coerceItemNum kvs "unitNetWeight" with
  | error e => rw [hu, exceptErrorBind] at hpi; exact Except.noConfusion hpi
  | ok u =>
    rw [hu, exceptOkBind] at hpi
    rw [if_pos (And.intro h1 h2)] at hpi
    dsimp only at hpi
    cases hup : coerceItemNum
        (objSet (objSet (objSet kvs "quantity" (.num q)) "netWeight" (.num n))
          "unitNetWeight" (.num (round6 (qDiv n q)))) "unitPrice" with
    | error e => rw [hup, exceptErrorBind] at hpi; exact Except.noConfusion hpi
    | ok up =>
      rw [hup, exceptOkBind] at hpi
      cases htot : coerceItemNum
          (objSet (objSet (objSet (objSet kvs "quantity" (.num q)) "netWeight" (.num n))
            "unitNetWeight" (.num (round6 (qDiv n q)))) "unitPrice" (.num up)) "total" with
      | error e => rw [htot, exceptErrorBind] at hpi; exact Except.noConfusion hpi
      | ok tot =>
        rw [htot, exceptOkBind, exceptPureEq] at hpi
        cases hpi
        refine ⟨_, rfl, ?_⟩
        rw [objGet_objSet_ne _ _ _ _ (by decide : ("weightUnit" : String) ≠ "unitNetWeight")]
        rw [objGet_objSet_ne _ _ _ _ (by decide : ("total" : String) ≠ "unitNetWeight")]
        rw [objGet_objSet_ne _ _ _ _ (by decide : ("unitPrice" : String) ≠ "unitNetWeight")]
        rw [objGet_objSet_self]
        rw [qDiv_eq_div]

/-! ## Claim theorems -/

/-- Claim C1, counterexample: the input `["a,]"]` is valid JSON (strict
parse yields the one-element array of the string `a,]`), yet
`_safe_json_parse` returns the array of the string `a]` — the
trailing-comma stage deleted a comma inside a string literal, so repair
does not return the strict-parse value of this valid JSON input. -/
theorem c1_counterexample :
    jsonParse "[\"a,]\"]".toList = some (.arr [.str "a,]"]) ∧
    safeJsonParse "[\"a,]\"]".toList = some (.arr [.str "a]"]) ∧
    (Json.arr [.str "a,]"]) ≠ (Json.arr [.str "a]"]) :=
  ⟨rfl, rfl, by simp⟩

/-- Claim C1 (amended): for every input on which the cleaning prelude
(envelope stripping, last-closer truncation and trailing-comma fix) makes
no change and which parses strictly, `_safe_json_parse` returns exactly
the strict-parse value — stage 3 short-circuits. -/
theorem c1_repair_agrees_with_strict_parse (s : List Char) (v : Json)
    (hclean : cleanText s = s) (hparse : jsonParse s = some v) :
    safeJsonParse s = some v := by
  unfold safeJsonParse
  rw [hclean]
  simp only [hparse]

/-- Concrete instance of `c1_repair_agrees_with_strict_parse` at the valid
JSON input `{"a": 1}`, discharging both hypotheses by computation. -/
theorem c1_witness :
    cleanText "\x7b\"a\": 1\x7d".toList = "\x7b\"a\": 1\x7d".toList ∧
    jsonParse "\x7b\"a\": 1\x7d".toList = some (.obj [("a", .num 1)]) ∧
    safeJsonParse "\x7b\"a\": 1\x7d".toList = some (.obj [("a", .num 1)]) :=
  ⟨rfl, rfl, c1_repair_agrees_with_strict_parse _ _ rfl rfl⟩

/-- Claim C2, counterexample: repair can return a value containing a row
fabricated from the truncated tail instead of dropping it. On
`[["a"],["b]` (cut inside the second row's string, which contains `]`)
the token balancer completes the partial row, giving `[["a"],["b]"]]`
instead of `[["a"]]`; and on `[["a` (cut inside the very first row, so no
closer exists anywhere) there is no last closer to truncate at, and the
balancer completes the partial row, giving `[["a"]]` instead of the empty
matrix `[]`. -/
theorem c2_counterexample :
    safeJsonParse "[[\"a\"],[\"b]".toList = some (.arr [.arr [.str "a"], .arr [.str "b]"]]) ∧
    (Json.arr [.arr [.str "a"], .arr [.str "b]"]]) ≠ (.arr [.arr [.str "a"]]) ∧
    safeJsonParse "[[\"a".toList = some (.arr [.arr [.str "a"]]) ∧
    (Json.arr [.arr [.str "a"]]) ≠ (.arr []) :=
  ⟨rfl, by simp, rfl, by simp⟩

/-- Claim C2 (amended): on the four concrete mid-row truncations below —
each with at least one complete row before the cut and no `}` or `]` in
the truncated tail (cuts inside a string, after a number, inside a
number, and after two complete rows) — repair returns exactly the value
obtained by dropping the incomplete trailing element and closing the
remaining brackets: the stage-1 last-closer truncation discards the tail
and the balancer closes the brackets.  The original universal claim is
refuted by `c2_counterexample`: a tail containing a closer, or a cut
before any complete row, makes the balancer complete the partial row
instead of dropping it. -/
theorem c2_truncation_drops_partial_row :
    safeJsonParse "[[\"a\"],[\"b".toList = some (.arr [.arr [.str "a"]]) ∧
    safeJsonParse "[[\"a\",1,2],[\"b\",3".toList = some (.arr [.arr [.str "a", .num 1, .num 2]]) ∧
    safeJsonParse "[[\"a\"],[\"b\",12.".toList = some (.arr [.arr [.str "a"]]) ∧
    safeJsonParse "[[\"a\"],[\"b\"],[\"c".toList =
      some (.arr [.arr [.str "a"], .arr [.str "b"]]) :=
  ⟨rfl, rfl, rfl, rfl⟩

/-- Claim C3: the merge normalization does NOT fall back to a default on a
truthy non-numeric string — `float("abc")` raises, so `_parse_line_items`
on the row `["X", null, "abc"]` fails, and `_post_process_invoice_data`
on a header `{"grandTotal": "N/A"}` fails, aborting the whole merge,
contrary to the specified never-crash coercion policy. -/
theorem c3_coercion_crash :
    parseLineItems (.arr [.arr [.str "X", .null, .str "abc"]]) =
      .error "ValueError: could not convert string to float" ∧
    postProcess [("grandTotal", .str "N/A")] =
      .error "ValueError: could not convert string to float" ∧
    mergePost [("grandTotal", .str "N/A")] (.arr []) =
      .error "ValueError: could not convert string to float" :=
  ⟨rfl, rfl, rfl⟩

/-- Claim C4, counterexample: in the text `[",]"]` the only comma lies
inside a string literal, yet the trailing-comma stage deletes it
(producing `["]"]`) — the regex does not ignore commas inside string
literals, so the stage is not the identity on such texts. -/
theorem c4_counterexample :
    fixTrailingCommas "[\",]\"]".toList = "[\"]\"]".toList ∧
    "[\"]\"]".toList ≠ "[\",]\"]".toList :=
  ⟨rfl, by decide⟩

/-- Claim C4 (amended): the trailing-comma stage removes every comma
followed by optional whitespace and a closing `}`/`]`, string literals
included; it is the identity exactly on text with no such occurrence
anywhere (`hasCommaCloser` false). -/
theorem c4_comma_fix_identity (cs : List Char) (h : hasCommaCloser cs = false) :
    fixTrailingCommas cs = cs :=
  fixTrailingCommasAux_id cs.length cs h

/-- Concrete instance of `c4_comma_fix_identity` on `[1, 2]`, a text with
a comma that is not followed by a closer. -/
theorem c4_witness :
    hasCommaCloser "[1, 2]".toList = false ∧
    fixTrailingCommas "[1, 2]".toList = "[1, 2]".toList :=
  ⟨rfl, c4_comma_fix_identity _ rfl⟩

/-- Claim C5: an operation failing twice with "429"-marked messages and
then succeeding resolves to the success value with exactly the two
backoff sleeps and three invocations (attempts 1, 2, 3); an operation
whose first failure carries no transient marker (none of 429,
RESOURCE_EXHAUSTED, 503, overloaded, UNAVAILABLE) propagates immediately,
with no sleep and no further invocation. -/
theorem c5_retry_classification (V : Type) :
    (∀ (op : ℕ → Except String V) (v : V) (e1 e2 : String),
      op 1 = .error e1 → op 2 = .error e2 → op 3 = .ok v →
      containsSub "429".toList e1.toList = true →
      containsSub "429".toList e2.toList = true →
      withRetry op 1 5 =
        ⟨.ok v, [computeDelay 1 e1, computeDelay 2 e2], [1, 2, 3]⟩) ∧
    (∀ (op : ℕ → Except String V) (e : String),
      op 1 = .error e → isTransient e = false →
      withRetry op 1 5 = ⟨.error e, [], [1]⟩) := by
  constructor
  · intro op v e1 e2 h1 h2 h3 hc1 hc2
    have t1 : isTransient e1 = true := by
      simp only [isTransient, isRateLimit, Bool.or_eq_true]
      exact Or.inl (Or.inl hc1)
    have t2 : isTransient e2 = true := by
      simp only [isTransient, isRateLimit, Bool.or_eq_true]
      exact Or.inl (Or.inl hc2)
    rw [withRetry, h1]
    simp only [dif_pos (And.intro t1 (by omega : (1:ℕ) ≤ 5))]
    rw [withRetry, h2]
    simp only [dif_pos (And.intro t2 (by omega : (2:ℕ) ≤ 5))]
    rw [withRetry, h3]
  · intro op e h1 ht
    rw [withRetry, h1]
    have : ¬ (isTransient e = true ∧ 1 ≤ 5) := by simp [ht]
    simp only [dif_neg this]

/-- Concrete instance of `c5_retry_classification`: `c5OpTransient` fails
on attempts 1 and 2 with 429 markers and succeeds on attempt 3;
`c5OpFatal` fails with a 400 message and is not retried. -/
theorem c5_witness :
    withRetry c5OpTransient 1 5 =
      ⟨.ok 7, [computeDelay 1 "HTTP 429 Too Many Requests",
               computeDelay 2 "429 RESOURCE_EXHAUSTED"], [1, 2, 3]⟩ ∧
    withRetry c5OpFatal 1 5 = ⟨.error "400 invalid argument", [], [1]⟩ :=
  ⟨(c5_retry_classification ℕ).1 c5OpTransient 7 _ _ rfl rfl rfl rfl rfl,
   (c5_retry_classification ℕ).2 c5OpFatal _ rfl rfl⟩

/-- Claim C6, counterexample: the text `{"a":[1,2],"b":3` is a valid JSON
document missing only its trailing `}` (appending it parses to
`{"a":[1,2],"b":3}`), yet repair returns `{"a":[1,2]}` — the stage-1
truncation at the last closing bracket discards `,"b":3` before the
balancer runs, so the fully-closed equivalent value is not recovered. -/
theorem c6_counterexample :
    jsonParse ("\x7b\"a\":[1,2],\"b\":3".toList ++ [Char.ofNat 125]) =
      some (.obj [("a", .arr [.num 1, .num 2]), ("b", .num 3)]) ∧
    safeJsonParse "\x7b\"a\":[1,2],\"b\":3".toList = some (.obj [("a", .arr [.num 1, .num 2])]) ∧
    (Json.obj [("a", .arr [.num 1, .num 2])]) ≠
      (.obj [("a", .arr [.num 1, .num 2]), ("b", .num 3)]) :=
  ⟨rfl, rfl, by simp⟩

/-- Claim C6 (amended): on text missing only trailing closers and
containing no earlier `}`/`]` (so the last-closer truncation cannot cut
content), the balancer recovers the fully-closed value: the spec's
example `{"a":[1,2,3` yields `{"a":[1,2,3]}` with the closers appended in
last-in-first-out order (`]` then `}`), an open string literal is closed,
a trailing comma is dropped, and a trailing colon gets `null`. -/
theorem c6_balancer_closes_missing_closers :
    safeJsonParse "\x7b\"a\":[1,2,3".toList = some (.obj [("a", .arr [.num 1, .num 2, .num 3])]) ∧
    balance "\x7b\"a\":[1,2,3".toList = "\x7b\"a\":[1,2,3]\x7d".toList ∧
    safeJsonParse "\x7b\"a\":\"xy".toList = some (.obj [("a", .str "xy")]) ∧
    safeJsonParse "\x7b\"a\":1,".toList = some (.obj [("a", .num 1)]) ∧
    safeJsonParse "\x7b\"a\":".toList = some (.obj [("a", .null)]) :=
  ⟨rfl, rfl, rfl, rfl, rfl⟩

/-- Claim C7: on the positional row `["Widget", null, 10, "PCS", 5.0,
50.0, 1.0, null, "8517.13.00"]` the merge produces exactly one normalized
row with description "Widget", null part number, quantity 10, unit price
5, NCM "8517.13.00" and derived unit net weight 1/10; and in general,
whenever the coerced net weight and quantity of an item are positive, the
written unit net weight is `round6 (netWeight / quantity)`, where
`round6` rounds to 6 decimal places. -/
theorem c7_normalize_rows :
    (∃ ikvs : List (String × Json),
      mergePost [] (.arr [.arr [.str "Widget", .null, .num 10, .str "PCS", .num 5, .num 50,
          .num 1, .null, .str "8517.13.00"]]) =
        .ok [("lineItems", .arr [.obj ikvs]), ("grandTotal", .num 0), ("totalNetWeight", .num 0),
             ("totalGrossWeight", .num 0), ("totalPackages", .num 0), ("freightValue", .num 0),
             ("insuranceValue", .num 0), ("otherChargesValue", .num 0)] ∧
      objGet ikvs "description" = some (.str "Widget") ∧
      objGet ikvs "partNumber" = some .null ∧
      objGet ikvs "quantity" = some (.num 10) ∧
      objGet ikvs "unitPrice" = some (.num 5) ∧
      objGet ikvs "ncm" = some (.str "8517.13.00") ∧
      objGet ikvs "unitNetWeight" = some (.num (1 / 10))) ∧
    (∀ (kvs : List (String × Json)) (r' : Json) (q n : ℚ),
      processItem (.obj kvs) = .ok r' →
      coerceItemNum kvs "netWeight" = .ok n →
      coerceItemNum kvs "quantity" = .ok q →
      0 < n → 0 < q →
      ∃ okvs, r' = .obj okvs ∧
        objGet okvs "unitNetWeight" = some (.num (round6 (n / q)))) ∧
    (∀ x : ℚ, round6 x = ((round (x * 1000000) : ℤ) : ℚ) / 1000000) := by
  refine ⟨?_, processItem_unitNetWeight, round6_eq_round⟩
  refine ⟨[("description", .str "Widget"), ("partNumber", .null), ("quantity", .num 10),
    ("unitMeasure", .str "PCS"), ("unitPrice", .num 5), ("total", .num 50),
    ("netWeight", .num 1), ("manufacturerRef", .null), ("ncm", .str "8517.13.00"),
    ("productCode", .null), ("taxClassificationDetail", .null),
    ("unitNetWeight", .num (mkRat 1 10)), ("manufacturerCode", .null),
    ("weightUnit", .str "KG")], rfl, rfl, rfl, rfl, rfl, rfl, ?_⟩
  rw [show ((1 : ℚ) / 10) = mkRat 1 10 from by norm_num [Rat.mkRat_eq_div]]
  rfl

/-- Concrete instance of the general weight rule of `c7_normalize_rows`,
applied to the normalized Widget item (net weight 1, quantity 10). -/
theorem c7_witness :
    ∃ okvs, (Json.obj [("description", .str "Widget"), ("partNumber", .null),
        ("quantity", .num 10), ("unitMeasure", .str "PCS"), ("unitPrice", .num 5),
        ("total", .num 50), ("netWeight", .num 1), ("manufacturerRef", .null),
        ("ncm", .str "8517.13.00"), ("productCode", .null),
        ("taxClassificationDetail", .null), ("unitNetWeight", .num (mkRat 1 10)),
        ("manufacturerCode", .null), ("weightUnit", .str "KG")]) = .obj okvs ∧
      objGet okvs "unitNetWeight" = some (.num (round6 ((1 : ℚ) / 10))) :=
  c7_normalize_rows.2.1
    [("description", .str "Widget"), ("partNumber", .null), ("quantity", .num 10),
     ("unitMeasure", .str "PCS"), ("unitPrice", .num 5), ("total", .num 50),
     ("netWeight", .num 1), ("manufacturerRef", .null), ("ncm", .str "8517.13.00"),
     ("productCode", .null), ("taxClassificationDetail", .null), ("unitNetWeight", .num 0),
     ("manufacturerCode", .null)]
    (.obj [("description", .str "Widget"), ("partNumber", .null), ("quantity", .num 10),
        ("unitMeasure", .str "PCS"), ("unitPrice", .num 5), ("total", .num 50),
        ("netWeight", .num 1), ("manufacturerRef", .null), ("ncm", .str "8517.13.00"),
        ("productCode", .null), ("taxClassificationDetail", .null),
        ("unitNetWeight", .num (mkRat 1 10)), ("manufacturerCode", .null),
        ("weightUnit", .str "KG")])
    10 1 rfl rfl rfl (by norm_num) (by norm_num)

/-- Properties of the merged dict produced by `mergePost`: every one of
the seven declared numeric header fields is present as a number (a
missing or null metadata value having become 0), the `lineItems` key is
always present, and it holds a sequence whenever the parsed line-items
value is one. -/
theorem mergePost_fields_spec (md : List (String × Json)) (rawItems : Json)
    (r : List (String × Json)) (h : mergePost md rawItems = .ok r) :
    (∀ f ∈ numericFields, ∃ q : ℚ, objGet r f = some (.num q) ∧
      ((objGet md f = some .null ∨ objGet md f = none) → q = 0)) ∧
    (∃ v, objGet r "lineItems" = some v) ∧
    (∀ xs, parseLineItems rawItems = .ok (.arr xs) →
      ∃ ys, objGet r "lineItems" = some (.arr ys)) := by
  unfold mergePost at h
  cases hL : parseLineItems rawItems with
  | error e => rw [hL, exceptErrorBind] at h; exact Except.noConfusion h
  | ok L =>
    rw [hL, exceptOkBind] at h
    unfold postProcess at h
    cases hF : processFields numericFields (objSet md "lineItems" L) with
    | error e => rw [hF, exceptErrorBind] at h; exact Except.noConfusion h
    | ok r1 =>
      rw [hF, exceptOkBind] at h
      have hpw : numericFields.Pairwise (· ≠ ·) := by decide
      obtain ⟨hA, hB⟩ := processFields_spec numericFields (objSet md "lineItems" L) r1 hpw hF
      have hLIn : objGet r1 "lineItems" = some L := by
        rw [hA "lineItems" (by decide), objGet_objSet_self]
      have hfields : ∀ f ∈ numericFields, ∃ q : ℚ, objGet r1 f = some (.num q) ∧
          ((objGet md f = some .null ∨ objGet md f = none) → q = 0) := by
        intro f hf
        obtain ⟨q, hq1, hq2⟩ := hB f hf
        have hne : ("lineItems" : String) ≠ f := by
          intro he
          have : ∀ g ∈ numericFields, g ≠ "lineItems" := by decide
          exact (this f hf) he.symm
        rw [objGet_objSet_ne _ _ _ _ hne] at hq1
        refine ⟨q, hq2, ?_⟩
        intro hnull
        rcases hnull with hn | hn <;> rw [hn] at hq1 <;>
          simpa [headerCoerce] using hq1.symm
      rw [hLIn] at h
      cases L with
      | arr items =>
        dsimp only at h
        cases hM : items.mapM processItem with
        | error e => rw [hM, exceptErrorBind] at h; exact Except.noConfusion h
        | ok items2 =>
          rw [hM, exceptOkBind, exceptPureEq] at h
          cases h
          refine ⟨?_, ?_, ?_⟩
          · intro f hf
            obtain ⟨q, hq1, hq2⟩ := hfields f hf
            have hne : ("lineItems" : String) ≠ f := by
              intro he
              have : ∀ g ∈ numericFields, g ≠ "lineItems" := by decide
              exact (this f hf) he.symm
            exact ⟨q, by rw [objGet_objSet_ne _ _ _ _ hne]; exact hq1, hq2⟩
          · exact ⟨.arr items2, objGet_objSet_self _ _ _⟩
          · intro xs _
            exact ⟨items2, objGet_objSet_self _ _ _⟩
      | null =>
        dsimp only at h
        rw [exceptPureEq] at h
        cases h
        exact ⟨hfields, ⟨_, hLIn⟩, fun xs hxs => by simp at hxs⟩
      | bool b =>
        dsimp only at h
        rw [exceptPureEq] at h
        cases h
        exact ⟨hfields, ⟨_, hLIn⟩, fun xs hxs => by simp at hxs⟩
      | num q =>
        dsimp only at h
        rw [exceptPureEq] at h
        cases h
        exact ⟨hfields, ⟨_, hLIn⟩, fun xs hxs => by simp at hxs⟩
      | str s =>
        dsimp only at h
        rw [exceptPureEq] at h
        cases h
        exact ⟨hfields, ⟨_, hLIn⟩, fun xs hxs => by simp at hxs⟩
      | obj kvs =>
        dsimp only at h
        rw [exceptPureEq] at h
        cases h
        exact ⟨hfields, ⟨_, hLIn⟩, fun xs hxs => by simp at hxs⟩


/-- Claim C8: whenever the merge-and-validate stage produces an
`InvoiceData` record, the merged dict holds each of the seven declared
numeric header fields as a number — a missing or null metadata value
having become 0, so the record's `grandTotal` is 0 in that case, never
null — and its `lineItems` key is always present and always holds a
sequence: any non-sequence shape there (possible via the dict-unwrap
branch of `_parse_line_items`) fails the `InvoiceData` construction, so
no record exists for it, and the record's `lineItems` is the element-wise
validation of that sequence. -/
theorem c8_merge_invariants (md : List (String × Json)) (rawItems : Json)
    (rec : InvoiceData) (h : extractRecord md rawItems = .ok rec) :
    (∃ r, mergePost md rawItems = .ok r ∧
      (∀ f ∈ numericFields, ∃ q : ℚ, objGet r f = some (.num q) ∧
        ((objGet md f = some .null ∨ objGet md f = none) → q = 0)) ∧
      (∃ ys, objGet r "lineItems" = some (.arr ys) ∧
        ys.mapM validateLineItem = .ok rec.lineItems)) ∧
    ((objGet md "grandTotal" = some .null ∨ objGet md "grandTotal" = none) →
      rec.grandTotal = 0) := by
  unfold extractRecord at h
  cases hm : mergePost md rawItems with
  | error e => rw [hm, exceptErrorBind] at h; exact Except.noConfusion h
  | ok r =>
    rw [hm, exceptOkBind] at h
    obtain ⟨hfields, ⟨v, hv⟩, _⟩ := mergePost_fields_spec md rawItems r hm
    unfold validateInvoiceData at h
    rw [hv] at h
    cases v with
    | arr ys =>
      rw [show validateLineItemsField (some (.arr ys)) = ys.mapM validateLineItem from rfl] at h
      cases hLi : ys.mapM validateLineItem with
      | error e => rw [hLi, exceptErrorBind] at h; exact Except.noConfusion h
      | ok li =>
        rw [hLi, exceptOkBind] at h
        obtain ⟨q0, hq0, hq0z⟩ := hfields "grandTotal" (by decide)
        rw [hq0] at h
        rw [show validateFloatD (some (.num q0)) 0 = .ok q0 from rfl, exceptOkBind] at h
        cases h2 : validateFloatD (objGet r "totalNetWeight") 0 with
        | error e => rw [h2, exceptErrorBind] at h; exact Except.noConfusion h
        | ok v2 =>
          rw [h2, exceptOkBind] at h
          cases h3 : validateFloatD (objGet r "totalGrossWeight") 0 with
          | error e => rw [h3, exceptErrorBind] at h; exact Except.noConfusion h
          | ok v3 =>
            rw [h3, exceptOkBind] at h
            cases h4 : validateIntD (objGet r "totalPackages") 0 with
            | error e => rw [h4, exceptErrorBind] at h; exact Except.noConfusion h
            | ok v4 =>
              rw [h4, exceptOkBind] at h
              cases h5 : validateFloatD (objGet r "freightValue") 0 with
              | error e => rw [h5, exceptErrorBind] at h; exact Except.noConfusion h
              | ok v5 =>
                rw [h5, exceptOkBind] at h
                cases h6 : validateFloatD (objGet r "insuranceValue") 0 with
                | error e => rw [h6, exceptErrorBind] at h; exact Except.noConfusion h
                | ok v6 =>
                  rw [h6, exceptOkBind] at h
                  cases h7 : validateFloatD (objGet r "otherChargesValue") 0 with
                  | error e => rw [h7, exceptErrorBind] at h; exact Except.noConfusion h
                  | ok v7 =>
                    rw [h7, exceptOkBind] at h
                    cases h8 : validateTextFields r with
                    | error e => rw [h8, exceptErrorBind] at h; exact Except.noConfusion h
                    | ok ts =>
                      rw [h8, exceptOkBind, exceptPureEq] at h
                      cases h
                      refine ⟨⟨r, rfl, hfields, ⟨ys, hv, ?_⟩⟩, ?_⟩
                      · rw [hLi]
                      · intro hnull
                        exact hq0z hnull
    | null =>
      rw [show validateLineItemsField (some .null) =
        Except.error "validation error: value is not a valid list" from rfl,
        exceptErrorBind] at h
      exact Except.noConfusion h
    | bool b =>
      rw [show validateLineItemsField (some (.bool b)) =
        Except.error "validation error: value is not a valid list" from rfl,
        exceptErrorBind] at h
      exact Except.noConfusion h
    | num q =>
      rw [show validateLineItemsField (some (.num q)) =
        Except.error "validation error: value is not a valid list" from rfl,
        exceptErrorBind] at h
      exact Except.noConfusion h
    | str s =>
      rw [show validateLineItemsField (some (.str s)) =
        Except.error "validation error: value is not a valid list" from rfl,
        exceptErrorBind] at h
      exact Except.noConfusion h
    | obj kvs =>
      rw [show validateLineItemsField (some (.obj kvs)) =
        Except.error "validation error: value is not a valid list" from rfl,
        exceptErrorBind] at h
      exact Except.noConfusion h

/-- Concrete instance of `c8_merge_invariants`: merging the metadata
`{"grandTotal": null}` with an empty line-item list passes validation and
yields a record whose `grandTotal` is the number 0 — never null — with
the merged dict's `lineItems` a sequence. -/
theorem c8_witness :
    ((⟨none, none, none, none, none, 0, none, none, none, none, none, none, none, none,
      none, none, 0, 0, 0, none, none, 0, 0, 0, []⟩ : InvoiceData)).grandTotal = 0 ∧
    ∃ r, mergePost [("grandTotal", Json.null)] (.arr []) = .ok r ∧
      (∃ q : ℚ, objGet r "grandTotal" = some (.num q) ∧ q = 0) ∧
      ∃ ys, objGet r "lineItems" = some (.arr ys) := by
  obtain ⟨⟨r, hr, hf, ⟨ys, hys, _⟩⟩, hgt⟩ :=
    c8_merge_invariants [("grandTotal", Json.null)] (.arr [])
      ⟨none, none, none, none, none, 0, none, none, none, none, none, none, none, none,
       none, none, 0, 0, 0, none, none, 0, 0, 0, []⟩ rfl
  obtain ⟨q, hq, hqz⟩ := hf "grandTotal" (by decide)
  exact ⟨hgt (Or.inl rfl), r, hr, ⟨q, hq, hqz (Or.inl rfl)⟩, ys, hys⟩

/-- Claim C9: on a transient failure at attempt `a` within the budget,
the first sleep of the remaining trace is `computeDelay a e`, which is
the exponential backoff `2 * 2^(a-1)` when the message carries no
`retry in <x>s` figure and is exactly the stated figure when it does. -/
theorem c9_delay_formula (V : Type) (op : ℕ → Except String V) (a m : ℕ) (e : String)
    (hop : op a = .error e) (ht : isTransient e = true) (ha : a ≤ m) :
    (withRetry op a m).delays.head? = some (computeDelay a e) ∧
    (findRetryIn e.toList = none → computeDelay a e = 2 * 2 ^ (a - 1)) ∧
    (∀ q, findRetryIn e.toList = some q → computeDelay a e = q) := by
  refine ⟨?_, ?_, ?_⟩
  · rw [withRetry, hop]
    simp only [dif_pos (And.intro ht ha)]
    rfl
  · intro h; unfold computeDelay; rw [h]
  · intro q h; unfold computeDelay; rw [h]

/-- Concrete instance of `c9_delay_formula`: a message stating
`retry in 7.5s` overrides the backoff with 7.5 seconds, and a plain
overload message at attempt 3 gets the default `2 * 2^2` seconds. -/
theorem c9_witness :
    (withRetry c9OpOverride 1 5).delays.head? = some (computeDelay 1 "429: retry in 7.5s") ∧
    computeDelay 1 "429: retry in 7.5s" = mkRat 15 2 ∧
    computeDelay 3 "503 server overloaded" = 2 * 2 ^ (3 - 1) :=
  ⟨(c9_delay_formula ℕ c9OpOverride 1 5 _ rfl rfl (by omega)).1,
   (c9_delay_formula ℕ c9OpOverride 1 5 _ rfl rfl (by omega)).2.2 (mkRat 15 2) rfl,
   (c9_delay_formula ℕ c9OpPlain 3 5 _ rfl rfl (by omega)).2.1 rfl⟩

/-- Claim C10: for every wrapped operation, the retry controller
terminates (it is a total function of this development) after at most
`maxRetries + 1` invocations — 6 under the default budget of 5 — and the
recorded attempt numbers are strictly increasing. -/
theorem c10_retry_termination (V : Type) (op : ℕ → Except String V) (m : ℕ) :
    (withRetry op 1 m).calls.length ≤ m + 1 ∧
    (withRetry op 1 m).calls.Pairwise (· < ·) ∧
    (withRetry op 1 5).calls.length ≤ 6 := by
  obtain ⟨k, hk1, hk2, hk3⟩ := withRetry_calls op 1 m
  obtain ⟨k5, hk51, hk52, hk53⟩ := withRetry_calls op 1 5
  refine ⟨?_, ?_, ?_⟩
  · rw [hk2]; simp; omega
  · rw [hk2]
    have := List.pairwise_lt_range' 1 k 1 (by omega)
    simpa using this
  · rw [hk52]; simp; omega
